import Mathlib

/-!
Shallow embedding of the SmartTour constrained tour-scheduling core.

The embedding follows `src/cpm/model.py` (class `TourOptimizer`) and
`src/cpm/pareto_analysis.py`.  Decision variables of the CP model become an
`Assignment`; the constraint families added by `_add_time_window_constraints`,
`_add_sequence_constraints` and `_add_overlap_constraints` become boolean
checkers over an assignment; the post-solve repair step `_format_solution`
becomes a pure function from an assignment to a `Solution`; the Pareto layer's
dominance filter becomes a list filter.  The CP-SAT search invoked by
`solve` is abstracted as an optional assignment handed to `solve`
(the surrounding control flow of `solve` is kept).
-/

namespace SmartTour

/-- Raw decision-variable assignment of the CP model: `x i` is the selection
flag `venue_selected_i`, `t i` the start slot `start_time_i`, and `p i` the
sequence position `position_i` (0 meaning unselected). -/
structure Assignment where
  x : Nat → Bool
  t : Nat → Nat
  p : Nat → Nat

/-- Data and configuration of one `TourOptimizer` instance, after the
constructor's conversions: dwell times are already in slots
(`max(1, int(hours * 2))`), the tour window is already in slot indices, and a
missing `venue_open_slots` key denotes the empty list (the source reads the
dict with `.get(key, [])`).  Lookup tables are total functions into `Option`
mirroring the Python `in`-checked dictionaries. -/
structure TourInstance where
  venues : List String
  dwell_slots : String → Nat
  time_slots : List String
  travel_times : String × String × String × String → Option Nat
  crowd_levels : String × String × String → Option Nat
  venue_open_slots : String × String → List Nat
  tour_start_slot : Nat
  tour_end_slot : Nat
  day : String
  min_venues : Int
  w_travel : Rat
  w_crowd : Rat
  w_venues : Rat

/-- Number of time slots (`self.n_slots`). -/
def nSlots (P : TourInstance) : Nat := P.time_slots.length

/-- Number of venues (`self.n_venues`). -/
def nVenues (P : TourInstance) : Nat := P.venues.length

/-- Venue name at index `i` (`self.venues[i]`). -/
def venueAt (P : TourInstance) (i : Nat) : String := P.venues.getD i ("")

/-- Dwell slots of the venue at index `i` (`self.dwell_slots[venue]`). -/
def dwellAt (P : TourInstance) (i : Nat) : Nat := P.dwell_slots (venueAt P i)

/-- Valid open slots of the venue at index `i` on the active day
(`self.venue_open_slots.get((venue, self.day), [])`). -/
def validAt (P : TourInstance) (i : Nat) : List Nat :=
  P.venue_open_slots (venueAt P i, P.day)

/-- Wall-clock label of a slot (`self.time_slots[s]`; out-of-range reads are
always guarded in the source). -/
def slotLabel (P : TourInstance) (s : Nat) : String := P.time_slots.getD s ("")

/-- Minimum of a nonempty list of slots (`min(valid_slots)`). -/
def listMin : List Nat → Nat
  | [] => 0
  | a :: as => as.foldl Nat.min a

/-- Maximum of a nonempty list of slots (`max(valid_slots)`). -/
def listMax : List Nat → Nat
  | [] => 0
  | a :: as => as.foldl Nat.max a

/-- Minutes-to-slots conversion used throughout the source:
`travel_slots = (travel_time + 29) // 30`. -/
def travelSlotsOfMinutes (m : Nat) : Nat := (m + 29) / 30

/-- Number of selected venues, `n_selected = sum(self.x)`. -/
def nSelected (P : TourInstance) (a : Assignment) : Nat :=
  (List.range (nVenues P)).countP (fun i => a.x i)

/-- Number of venues holding position `pos`,
`pos_count = sum(self.p[i] == pos ...)`. -/
def posCount (P : TourInstance) (a : Assignment) (pos : Nat) : Nat :=
  (List.range (nVenues P)).countP (fun i => a.p i == pos)

/-- Check of `all(slot in valid_slots for slot in visit_slots)` for a visit of
venue `i` starting at slot `s` (constraint 3 of
`_add_time_window_constraints`). -/
def visitFitsOpen (P : TourInstance) (i s : Nat) : Bool :=
  (List.range (dwellAt P i)).all (fun o => (validAt P i).contains (s + o))

/-- Variable domains: `IntVar(0, n_slots-1)` for start times and
`IntVar(0, n_venues)` for positions. -/
def domainOk (P : TourInstance) (a : Assignment) : Bool :=
  (List.range (nVenues P)).all fun i =>
    decide (a.t i + 1 ≤ nSlots P) && decide (a.p i ≤ nVenues P)

/-- Constraints added by `_add_time_window_constraints`: per venue, if its
valid-slot list is empty the venue is forced unselected; otherwise a selected
venue must start within `[max(tour_start, earliest_valid),
min(tour_end, latest_valid - dwell + 1)]`, end by `latest_valid + 1`, and may
not start at any slot whose dwell interval leaves the valid-slot set. -/
def timeWindowOk (P : TourInstance) (a : Assignment) : Bool :=
  (List.range (nVenues P)).all fun i =>
    match validAt P i with
    | [] => !a.x i
    | _ =>
      (!a.x i ||
        (decide (max P.tour_start_slot (listMin (validAt P i)) ≤ a.t i) &&
         decide ((a.t i : Int) ≤
           min (P.tour_end_slot : Int)
             ((listMax (validAt P i) : Int) - (dwellAt P i : Int) + 1)) &&
         decide (a.t i + dwellAt P i ≤ listMax (validAt P i) + 1))) &&
      ((List.range (nSlots P)).all fun s =>
        visitFitsOpen P i s || !a.x i || !(a.t i == s))

/-- Position-consistency constraints of `_add_sequence_constraints`:
selection iff positive position, the minimum-venue floor, positions bounded by
the number of selected venues, and each position `1..n` used exactly once when
at most `n_selected` and never otherwise. -/
def positionOk (P : TourInstance) (a : Assignment) : Bool :=
  ((List.range (nVenues P)).all fun i =>
    (!a.x i || decide (0 < a.p i)) && (a.x i || (a.p i == 0))) &&
  decide (P.min_venues ≤ (nSelected P a : Int)) &&
  ((List.range (nVenues P)).all fun i =>
    (List.range (nVenues P)).all fun pos0 =>
      !(a.p i == pos0 + 1) || decide (pos0 + 1 ≤ nSelected P a)) &&
  ((List.range (nVenues P)).all fun pos0 =>
    (!decide (pos0 + 1 ≤ nSelected P a) || (posCount P a (pos0 + 1) == 1)) &&
    (!decide (nSelected P a < pos0 + 1) || (posCount P a (pos0 + 1) == 0)))

/-- Travel/closing-time constraints of `_add_sequence_constraints` (its part 3
and 4): for ordered pairs of venues that both have valid slots, a selected
venue may not start so late that it ends after its own closing; and when the
travel key for the end-of-`i` slot is present, a consecutive pair must leave
room for travel and for `j` to close in time.  Pairs with a missing travel key
get no constraint, exactly as in the source. -/
def seqTravelOk (P : TourInstance) (a : Assignment) : Bool :=
  (List.range (nVenues P)).all fun i =>
    match validAt P i with
    | [] => true
    | _ =>
      (List.range (nVenues P)).all fun j =>
        if j = i then true
        else
          match validAt P j with
          | [] => true
          | _ =>
            (List.range (nSlots P)).all fun s =>
              if listMax (validAt P i) < s + dwellAt P i then
                !(a.x i && (a.t i == s))
              else if s + dwellAt P i < nSlots P then
                match P.travel_times
                    (venueAt P i, venueAt P j,
                     slotLabel P (s + dwellAt P i), P.day) with
                | some tt =>
                  !(a.x i && a.x j && (a.p j == a.p i + 1) && (a.t i == s)) ||
                  (decide (s + dwellAt P i + travelSlotsOfMinutes tt ≤ a.t j) &&
                   decide ((a.t j : Int) ≤
                     (listMax (validAt P j) : Int) - (dwellAt P j : Int)))
                | none => true
              else true

/-- Constraints added by `_add_overlap_constraints`: pairwise non-overlap of
selected venues, distinct positions, and the start-slot-keyed travel
constraint for consecutive pairs (the source keys this lookup by the start
time of venue `i`, not its end time). -/
def overlapOk (P : TourInstance) (a : Assignment) : Bool :=
  (List.range (nVenues P)).all fun i =>
    (List.range (nVenues P)).all fun j =>
      if i < j then
        (!(a.x i && a.x j) ||
          decide (a.t i + dwellAt P i ≤ a.t j) ||
          decide (a.t j + dwellAt P j ≤ a.t i)) &&
        (!(a.x i && a.x j) || !(a.p i == a.p j)) &&
        ((List.range (nSlots P)).all fun s =>
          match P.travel_times (venueAt P i, venueAt P j, slotLabel P s, P.day) with
          | some tt =>
            !(a.x i && a.x j && (a.p j == a.p i + 1) && (a.t i == s)) ||
            decide (a.t i + dwellAt P i + travelSlotsOfMinutes tt ≤ a.t j)
          | none => true)
      else true

/-- Full feasibility of an assignment for the CP model built by
`_add_constraints`: variable domains plus all three constraint families.  A
solution returned by `solve` is an assignment satisfying this predicate. -/
def satisfiesModel (P : TourInstance) (a : Assignment) : Bool :=
  domainOk P a && timeWindowOk P a && positionOk P a &&
    seqTravelOk P a && overlapOk P a

/-- One formatted visit of the output schedule (`visit` dict built by
`_format_solution`); slot indices are kept alongside the wall-clock labels,
and the warning string is abstracted to the flag that triggers it. -/
structure Visit where
  venue : String
  startSlot : Nat
  endSlot : Nat
  start_time : String
  end_time : String
  crowd_level_avg : Rat
  travel_time_to_next : Option Nat
  warning : Bool

/-- Aggregate metrics of a solution (the `metrics` dict of
`_format_solution`). -/
structure Metrics where
  total_venues : Nat
  total_travel_time_minutes : Nat
  average_travel_time : Rat
  total_crowd_exposure : Nat
  average_crowd_level : Rat

/-- The solution dictionary returned by `solve`/`_format_solution`. -/
structure Solution where
  selected_venues : List String
  start_times : List (String × String)
  metrics : Metrics
  schedule : List Visit

/-- Indices of the solver-selected venues
(`[i for i in range(self.n_venues) if x_val[i]]`). -/
def selectedIndices (P : TourInstance) (a : Assignment) : List Nat :=
  (List.range (nVenues P)).filter (fun i => a.x i)

/-- Selected indices sorted by position
(`sorted(selected_indices, key=lambda i: p_val[i])`; Python's sort is stable
and insertion sort on a total preorder is stable, so the two agree). -/
def orderedIndices (P : TourInstance) (a : Assignment) : List Nat :=
  (selectedIndices P a).insertionSort (fun i j => a.p i ≤ a.p j)

/-- Effective start slot the repair loop of `_format_solution` computes for
venue `cur` given its predecessor in position order (`none` for the first
visit).  `none` models the `continue` statements that drop the venue before
the end-of-horizon check. -/
def repairedStart (P : TourInstance) (a : Assignment)
    (prev : Option Nat) (cur : Nat) : Option Nat :=
  match prev with
  | none => some (a.t cur)
  | some pv =>
    let prevEnd := a.t pv + dwellAt P pv
    let prevEndTime := slotLabel P (min prevEnd (nSlots P - 1))
    match P.travel_times (venueAt P pv, venueAt P cur, prevEndTime, P.day) with
    | some tt =>
      let earliest := prevEnd + travelSlotsOfMinutes tt
      if nSlots P ≤ earliest then none
      else if nSlots P ≤ max (a.t cur) earliest then none
      else some (max (a.t cur) earliest)
    | none => some (max (a.t cur) (prevEnd + 1))

/-- Crowd levels present in the table during a visit
(`crowd_levels` list built for `range(start_slot, min(end_slot, n_slots))`). -/
def visitCrowds (P : TourInstance) (v : String) (s e : Nat) : List Nat :=
  (List.range' s (min e (nSlots P) - s)).filterMap
    (fun u => P.crowd_levels (v, slotLabel P u, P.day))

/-- One iteration of the schedule loop of `_format_solution` for venue `cur`
with predecessor `prev` and successor `next` in position order; `none` when
the venue is dropped (any of the three `continue` branches). -/
def mkVisit (P : TourInstance) (a : Assignment)
    (prev : Option Nat) (cur : Nat) (next : Option Nat) : Option Visit :=
  match repairedStart P a prev cur with
  | none => none
  | some s =>
    let e := s + dwellAt P cur
    if nSlots P ≤ e then none
    else
      let crowds := visitCrowds P (venueAt P cur) s e
      let endTime := slotLabel P (min e (nSlots P - 1))
      some
        { venue := venueAt P cur
          startSlot := s
          endSlot := e
          start_time := slotLabel P (min s (nSlots P - 1))
          end_time := endTime
          crowd_level_avg :=
            if crowds.length = 0 then 0 else (crowds.sum : Rat) / (crowds.length : Rat)
          travel_time_to_next :=
            match next with
            | none => none
            | some nx => P.travel_times (venueAt P cur, venueAt P nx, endTime, P.day)
          warning :=
            !(List.range' s (e - s)).all (fun u => (validAt P cur).contains u) }

/-- Decoration of a list with each element's predecessor and successor; the
repair loop always takes `ordered_indices[idx-1]` as predecessor and
`ordered_indices[idx+1]` as successor, regardless of drops. -/
def neighborTriples (prev : Option Nat) : List Nat → List (Option Nat × Nat × Option Nat)
  | [] => []
  | [c] => [(prev, c, none)]
  | c :: d :: rest => (prev, c, some d) :: neighborTriples (some c) (d :: rest)

/-- The output schedule of `_format_solution`: the repair loop over the
position-ordered selected venues, with dropped venues filtered out. -/
def schedule (P : TourInstance) (a : Assignment) : List Visit :=
  (neighborTriples none (orderedIndices P a)).filterMap
    (fun pcn => mkVisit P a pcn.1 pcn.2.1 pcn.2.2)

/-- Total travel minutes accumulated by the schedule loop: only visits kept in
the schedule contribute, and only when their forward travel key is present. -/
def totalTravel (sch : List Visit) : Nat :=
  (sch.map (fun v => v.travel_time_to_next.getD 0)).sum

/-- Total crowd exposure accumulated by the schedule loop (sum of the present
crowd entries of each kept visit). -/
def totalCrowd (P : TourInstance) (sch : List Visit) : Nat :=
  (sch.map (fun v => (visitCrowds P v.venue v.startSlot v.endSlot).sum)).sum

/-- The solution dictionary built at the end of `_format_solution`. -/
def formatSolution (P : TourInstance) (a : Assignment) : Solution :=
  let ordered := orderedIndices P a
  let sel := ordered.map (venueAt P)
  let sch := schedule P a
  let tt := totalTravel sch
  let tc := totalCrowd P sch
  { selected_venues := sel
    start_times := sch.map (fun v => (v.venue, v.start_time))
    metrics :=
      { total_venues := sel.length
        total_travel_time_minutes := tt
        average_travel_time :=
          if 1 < sel.length then (tt : Rat) / ((sel.length - 1 : Nat) : Rat) else 0
        total_crowd_exposure := tc
        average_crowd_level :=
          if sel.isEmpty then 0
          else (tc : Rat) / (((sel.map P.dwell_slots).sum : Nat) : Rat) }
    schedule := sch }

/-- The `solve` method: the outcome of the CP-SAT search
(`CPM_ortools(self.model); solver.solve()`) is abstracted as the optional
assignment `result`; on success the formatted solution is returned, otherwise
`none`.  The `num_cores` and `time_limit` parameters are received exactly as
in the source, which never forwards them to the solver call. -/
def solve (P : TourInstance) (result : Option Assignment)
    (numCores timeLimit : Nat) : Option Solution :=
  match result with
  | some a => some (formatSolution P a)
  | none => none

/-- The `set_min_venues` method: stores `max(1, min_venues)` and rebuilds the
model, returning the optimizer itself. -/
def set_min_venues (P : TourInstance) (m : Int) : TourInstance :=
  { P with min_venues := max 1 m }

/-- Dominance test inside `is_pareto_optimal` of `pareto_analysis.py`: `other`
is no worse on travel time, average crowd and venue count (venue count
reversed) and strictly better on at least one. -/
def dominates (other sol : Solution) : Bool :=
  decide (other.metrics.total_travel_time_minutes ≤ sol.metrics.total_travel_time_minutes) &&
  decide (other.metrics.average_crowd_level ≤ sol.metrics.average_crowd_level) &&
  decide (sol.metrics.total_venues ≤ other.metrics.total_venues) &&
  (decide (other.metrics.total_travel_time_minutes < sol.metrics.total_travel_time_minutes) ||
   decide (other.metrics.average_crowd_level < sol.metrics.average_crowd_level) ||
   decide (sol.metrics.total_venues < other.metrics.total_venues))

/-- Predicate `is_pareto_optimal`: no solution of the candidate list dominates this one.
The source skips the object-identity comparison `other is solution`; that skip
is immaterial here because `dominates` is irreflexive (it demands a strict
inequality), so the test is stated over the whole list. -/
def is_pareto_optimal (sol : Solution) (all_solutions : List Solution) : Bool :=
  all_solutions.all (fun other => !dominates other sol)

/-- Filter `identify_pareto_optimal_solutions`: keep exactly the candidates that pass
`is_pareto_optimal` against the full list. -/
def identify_pareto_optimal_solutions (solutions : List Solution) : List Solution :=
  solutions.filter (fun s => is_pareto_optimal s solutions)

/-- Travel-slot gap the repair step enforces between consecutive ordered
venues, written from the spec's words for comparison with the code: the table
entry at the previous venue's (clamped) end time converted by ceiling
division, with the default 30 minutes, i.e. one slot, when the entry is
missing. -/
def specTravelSlots (P : TourInstance) (a : Assignment) (pv cur : Nat) : Nat :=
  match P.travel_times
      (venueAt P pv, venueAt P cur,
       slotLabel P (min (a.t pv + dwellAt P pv) (nSlots P - 1)), P.day) with
  | some tt => travelSlotsOfMinutes tt
  | none => 1

/-- Effective start slot as the spec states it: the raw start for the first
visit in position order, and `max(raw start, previous raw end + travel slots)`
for each subsequent visit. -/
def specEffectiveStart (P : TourInstance) (a : Assignment)
    (prev : Option Nat) (cur : Nat) : Nat :=
  match prev with
  | none => a.t cur
  | some pv => max (a.t cur) (a.t pv + dwellAt P pv + specTravelSlots P a pv cur)

/-- Schedule as the spec describes the repair step: over the position-ordered
selected venues, keep a venue (with its effective start) exactly when its
effective start plus dwell still fits before the schedule horizon, and drop it
otherwise while keeping the rest. -/
def specSchedule (P : TourInstance) (a : Assignment) : List (Nat × Nat) :=
  (neighborTriples none (orderedIndices P a)).filterMap fun pcn =>
    let s := specEffectiveStart P a pcn.1 pcn.2.1
    if s + dwellAt P pcn.2.1 < nSlots P then some (pcn.2.1, s) else none

/-- Half-hour slot labels shared by the concrete instances. -/
def slots4 : List String := ["09:00", "09:30", "10:00", "10:30"]

/-- Six half-hour slot labels for the idempotence instance. -/
def slots6 : List String := ["09:00", "09:30", "10:00", "10:30", "11:00", "11:30"]

/-- Instance for the tour-window claim: one venue of two slots dwell, open
only in the last two slots, with the tour window covering all four slots. -/
def instC1 : TourInstance where
  venues := ["A"]
  dwell_slots := fun _ => 2
  time_slots := slots4
  travel_times := fun _ => none
  crowd_levels := fun _ => none
  venue_open_slots := fun k => if k = ("A", "Monday") then [2, 3] else []
  tour_start_slot := 0
  tour_end_slot := 3
  day := "Monday"
  min_venues := 1
  w_travel := 1
  w_crowd := 1 / 2
  w_venues := -20

/-- The unique feasible assignment of `instC1`: the venue selected at
position 1, starting at slot 2. -/
def asgC1 : Assignment where
  x := fun _ => true
  t := fun _ => 2
  p := fun _ => 1

/-- Instance for the empty-valid-slot claim: venue B has no valid slots on
the active day. -/
def instC4 : TourInstance where
  venues := ["A", "B"]
  dwell_slots := fun _ => 1
  time_slots := slots4
  travel_times := fun _ => none
  crowd_levels := fun _ => none
  venue_open_slots := fun k => if k = ("A", "Monday") then [0, 1] else []
  tour_start_slot := 0
  tour_end_slot := 3
  day := "Monday"
  min_venues := 1
  w_travel := 1
  w_crowd := 1 / 2
  w_venues := -20

/-- Feasible assignment of `instC4`: venue A visited alone. -/
def asgC4 : Assignment where
  x := fun i => i == 0
  t := fun _ => 0
  p := fun i => if i = 0 then 1 else 0

/-- Instance for the missing-travel-key claim: two one-slot venues open all
day with an empty travel-time table. -/
def instC5 : TourInstance where
  venues := ["A", "B"]
  dwell_slots := fun _ => 1
  time_slots := slots4
  travel_times := fun _ => none
  crowd_levels := fun _ => none
  venue_open_slots := fun k =>
    if k = ("A", "Monday") then [0, 1, 2, 3]
    else if k = ("B", "Monday") then [0, 1, 2, 3]
    else []
  tour_start_slot := 0
  tour_end_slot := 3
  day := "Monday"
  min_venues := 1
  w_travel := 1
  w_crowd := 1 / 2
  w_venues := -20

/-- Feasible assignment of `instC5`: both venues selected back-to-back with a
zero-slot travel gap. -/
def asgC5 : Assignment where
  x := fun _ => true
  t := fun i => i
  p := fun i => i + 1

/-- Instance for the idempotence claim: two venues with a present travel-time
entry of 30 minutes at venue A's end time. -/
def instC8 : TourInstance where
  venues := ["A", "B"]
  dwell_slots := fun _ => 1
  time_slots := slots6
  travel_times := fun k => if k = ("A", "B", "09:30", "Monday") then some 30 else none
  crowd_levels := fun _ => none
  venue_open_slots := fun k =>
    if k = ("A", "Monday") then [0, 1, 2, 3, 4, 5]
    else if k = ("B", "Monday") then [0, 1, 2, 3, 4, 5]
    else []
  tour_start_slot := 0
  tour_end_slot := 5
  day := "Monday"
  min_venues := 1
  w_travel := 1
  w_crowd := 1 / 2
  w_venues := -20

/-- Already-consistent raw assignment of `instC8`: B starts one travel slot
after A's end. -/
def asgC8 : Assignment where
  x := fun _ => true
  t := fun i => 2 * i
  p := fun i => i + 1

/-- Instance for the metrics claim: venue B's repaired visit overruns the
horizon (60 travel minutes from A's end), so the repair step drops it. -/
def instC10 : TourInstance where
  venues := ["A", "B"]
  dwell_slots := fun v => if v = "B" then 2 else 1
  time_slots := slots4
  travel_times := fun k => if k = ("A", "B", "10:00", "Monday") then some 60 else none
  crowd_levels := fun _ => none
  venue_open_slots := fun k =>
    if k = ("A", "Monday") then [0, 1, 2, 3]
    else if k = ("B", "Monday") then [0, 1, 2, 3]
    else []
  tour_start_slot := 0
  tour_end_slot := 3
  day := "Monday"
  min_venues := 1
  w_travel := 1
  w_crowd := 1 / 2
  w_venues := -20

/-- Raw assignment of `instC10` whose second visit gets dropped by the repair
step. -/
def asgC10 : Assignment where
  x := fun _ => true
  t := fun i => i + 1
  p := fun i => i + 1

/-- C6: the `time_limit` argument of `solve` has no effect whatsoever on the
result — the source accepts and documents the parameter but never forwards it
to the solver call, so the search is not bounded by the budget. -/
theorem c6_time_limit_unused (P : TourInstance) (result : Option Assignment)
    (numCores tl tl' : Nat) :
    solve P result numCores tl = solve P result numCores tl' := rfl

/-- C9: `set_min_venues k` clamps the stored floor to `max 1 k` (so a zero or
negative request still yields one) and returns the optimizer itself, all other
configuration unchanged. -/
theorem c9_set_min_venues_clamps (P : TourInstance) (k : Int) :
    (set_min_venues P k).min_venues = max 1 k ∧
      1 ≤ (set_min_venues P k).min_venues ∧
      (set_min_venues P k).venues = P.venues ∧
      (set_min_venues P k).dwell_slots = P.dwell_slots ∧
      (set_min_venues P k).time_slots = P.time_slots ∧
      (set_min_venues P k).travel_times = P.travel_times ∧
      (set_min_venues P k).crowd_levels = P.crowd_levels ∧
      (set_min_venues P k).venue_open_slots = P.venue_open_slots ∧
      (set_min_venues P k).tour_start_slot = P.tour_start_slot ∧
      (set_min_venues P k).tour_end_slot = P.tour_end_slot ∧
      (set_min_venues P k).day = P.day ∧
      (set_min_venues P k).w_travel = P.w_travel ∧
      (set_min_venues P k).w_crowd = P.w_crowd ∧
      (set_min_venues P k).w_venues = P.w_venues :=
  ⟨rfl, le_max_left 1 k, rfl, rfl, rfl, rfl, rfl, rfl, rfl, rfl, rfl, rfl, rfl, rfl⟩

/-- C3: a candidate is kept by `identify_pareto_optimal_solutions` exactly
when it is in the list and no solution of the list is at least as good on
travel time, average crowd and venue count (reversed) and strictly better on
one of them; hence the returned set is exactly the non-dominated subset. -/
theorem c3_pareto_filter (s : Solution) (sols : List Solution) :
    s ∈ identify_pareto_optimal_solutions sols ↔
      s ∈ sols ∧
        ∀ o ∈ sols,
          ¬(o.metrics.total_travel_time_minutes ≤ s.metrics.total_travel_time_minutes ∧
            o.metrics.average_crowd_level ≤ s.metrics.average_crowd_level ∧
            s.metrics.total_venues ≤ o.metrics.total_venues ∧
            (o.metrics.total_travel_time_minutes < s.metrics.total_travel_time_minutes ∨
             o.metrics.average_crowd_level < s.metrics.average_crowd_level ∨
             s.metrics.total_venues < o.metrics.total_venues)) := by
  have key : ∀ o : Solution, dominates o s = true ↔
      (o.metrics.total_travel_time_minutes ≤ s.metrics.total_travel_time_minutes ∧
        o.metrics.average_crowd_level ≤ s.metrics.average_crowd_level ∧
        s.metrics.total_venues ≤ o.metrics.total_venues ∧
        (o.metrics.total_travel_time_minutes < s.metrics.total_travel_time_minutes ∨
         o.metrics.average_crowd_level < s.metrics.average_crowd_level ∨
         s.metrics.total_venues < o.metrics.total_venues)) := by
    intro o
    simp [dominates, Bool.and_eq_true, Bool.or_eq_true, decide_eq_true_iff, and_assoc,
      or_assoc]
  simp only [identify_pareto_optimal_solutions, List.mem_filter, is_pareto_optimal,
    List.all_eq_true]
  refine and_congr_right fun _ => forall₂_congr fun o ho => ?_
  rw [Bool.not_eq_true', ← key o]
  simp

/-- C5 (counterexample): in the constraint model a consecutive selected pair
whose travel key is missing is *not* separated by any default travel slots:
`instC5` has an empty travel table, yet the assignment scheduling B directly
at A's end slot (zero travel gap) satisfies every model constraint. -/
theorem c5_counterexample :
    satisfiesModel instC5 asgC5 = true ∧
      asgC5.x 0 = true ∧ asgC5.x 1 = true ∧ asgC5.p 1 = asgC5.p 0 + 1 ∧
      instC5.travel_times
        (venueAt instC5 0, venueAt instC5 1,
         slotLabel instC5 (asgC5.t 0 + dwellAt instC5 0), instC5.day) = none ∧
      asgC5.t 1 = asgC5.t 0 + dwellAt instC5 0 := by decide

/-- C5 (amended): only the repair step of `_format_solution` substitutes the
defined default for a missing travel key — the effective start becomes
`max(raw start, previous raw end + 1 slot)`, one slot being exactly 30
default minutes under ceiling division. -/
theorem c5_missing_edge_default_in_repair (P : TourInstance) (a : Assignment)
    (pv cur : Nat)
    (h : P.travel_times
        (venueAt P pv, venueAt P cur,
         slotLabel P (min (a.t pv + dwellAt P pv) (nSlots P - 1)), P.day) = none) :
    repairedStart P a (some pv) cur =
      some (max (a.t cur) (a.t pv + dwellAt P pv + travelSlotsOfMinutes 30)) := by
  simp [repairedStart, h, travelSlotsOfMinutes]

/-- Witness for the amended C5 statement at the concrete instance. -/
theorem c5_witness :
    repairedStart instC5 asgC5 (some 0) 1 =
      some (max (asgC5.t 1) (asgC5.t 0 + dwellAt instC5 0 + travelSlotsOfMinutes 30)) :=
  c5_missing_edge_default_in_repair instC5 asgC5 0 1 (by decide)

/-- C1 (counterexample): the model does not constrain `start + dwell` by the
tour end slot: in `instC1` the only feasible assignment selects venue A at
slot 2 with dwell 2, ending at slot 4, strictly past `tour_end_slot = 3`. -/
theorem c1_counterexample :
    satisfiesModel instC1 asgC1 = true ∧ asgC1.x 0 = true ∧
      instC1.tour_end_slot < asgC1.t 0 + dwellAt instC1 0 := by decide

/-- C1 (amended): for a feasible assignment, every selected venue starts
inside the tour window (`tourStart ≤ start ≤ tourEnd`), but the dwell-end
bound is enforced only against the venue's own latest valid slot
(`start + dwell ≤ latest_valid + 1`), not against the tour end. -/
theorem c1_tour_window_amended (P : TourInstance) (a : Assignment)
    (h : satisfiesModel P a = true) (i : Nat) (hi : i < nVenues P)
    (hx : a.x i = true) :
    P.tour_start_slot ≤ a.t i ∧ a.t i ≤ P.tour_end_slot ∧
      a.t i + dwellAt P i ≤ listMax (validAt P i) + 1 := by
  have htw : timeWindowOk P a = true := by
    simp only [satisfiesModel, Bool.and_eq_true] at h
    exact h.1.1.1.2
  rw [timeWindowOk, List.all_eq_true] at htw
  have hIt := htw i (List.mem_range.mpr hi)
  rcases hval : validAt P i with _ | ⟨v, vs⟩
  · rw [hval] at hIt
    simp only [hx] at hIt
    exact absurd hIt (by simp)
  · rw [hval] at hIt
    simp only [hx, Bool.and_eq_true, Bool.or_eq_true, Bool.not_eq_true',
      decide_eq_true_iff] at hIt
    rcases hIt with ⟨hsel | ⟨⟨hmax, hminI⟩, hend⟩, _⟩
    · exact absurd hsel (by simp)
    · refine ⟨le_trans (le_max_left _ _) hmax, ?_, hend⟩
      have : (a.t i : Int) ≤ (P.tour_end_slot : Int) :=
        le_trans hminI (min_le_left _ _)
      exact_mod_cast this

/-- Witness for the amended C1 statement at the feasible concrete instance. -/
theorem c1_witness :
    instC1.tour_start_slot ≤ asgC1.t 0 ∧ asgC1.t 0 ≤ instC1.tour_end_slot ∧
      asgC1.t 0 + dwellAt instC1 0 ≤ listMax (validAt instC1 0) + 1 :=
  c1_tour_window_amended instC1 asgC1 (by decide) 0 (by decide) (by decide)

/-- C4: a venue whose valid-slot list for the active day is empty is forced
unselected in every feasible assignment, and feasibility is unaffected by the
objective weights (the constraint set never reads them); the embedded model
construction is total, mirroring that the source never raises here. -/
theorem c4_empty_valid_slots (P : TourInstance) (a : Assignment)
    (h : satisfiesModel P a = true) (i : Nat) (hi : i < nVenues P)
    (hempty : validAt P i = []) :
    a.x i = false ∧
      ∀ wt wc wv,
        satisfiesModel
          { P with w_travel := wt, w_crowd := wc, w_venues := wv } a = true := by
  constructor
  · have htw : timeWindowOk P a = true := by
      simp only [satisfiesModel, Bool.and_eq_true] at h
      exact h.1.1.1.2
    rw [timeWindowOk, List.all_eq_true] at htw
    have hIt := htw i (List.mem_range.mpr hi)
    rw [hempty] at hIt
    simpa using hIt
  · intro wt wc wv
    exact h

/-- Witness for C4 at the concrete instance: venue B (empty slots) comes out
unselected. -/
theorem c4_witness : asgC4.x 1 = false :=
  (c4_empty_valid_slots instC4 asgC4 (by decide) 1 (by decide) (by decide)).1

/-- One loop iteration of the repair step agrees with the spec-side step: the
venue is kept exactly when its effective start plus dwell fits the horizon,
and then its scheduled slots are the effective start and its dwell end. -/
theorem mkVisit_proj_eq_spec (P : TourInstance) (a : Assignment)
    (prev : Option Nat) (cur : Nat) (next : Option Nat) :
    (mkVisit P a prev cur next).map (fun v => (v.venue, v.startSlot, v.endSlot)) =
      (if specEffectiveStart P a prev cur + dwellAt P cur < nSlots P
       then some (cur, specEffectiveStart P a prev cur) else none).map
        (fun q => (venueAt P q.1, q.2, q.2 + dwellAt P q.1)) := by
  cases prev with
  | none =>
    by_cases hc : a.t cur + dwellAt P cur < nSlots P
    · simp [mkVisit, repairedStart, specEffectiveStart, hc, Nat.not_le.mpr hc]
    · simp [mkVisit, repairedStart, specEffectiveStart, hc, Nat.le_of_not_lt hc]
  | some pv =>
    simp only [mkVisit, repairedStart, specEffectiveStart, specTravelSlots]
    rcases hlk : P.travel_times (venueAt P pv, venueAt P cur,
        slotLabel P (min (a.t pv + dwellAt P pv) (nSlots P - 1)), P.day) with _ | tt
    · by_cases hc : max (a.t cur) (a.t pv + dwellAt P pv + 1) + dwellAt P cur < nSlots P
      · simp [hc, Nat.not_le.mpr hc]
      · simp [hc, Nat.le_of_not_lt hc]
    · by_cases h1 : nSlots P ≤ a.t pv + dwellAt P pv + travelSlotsOfMinutes tt
      · have hns : ¬ (max (a.t cur) (a.t pv + dwellAt P pv + travelSlotsOfMinutes tt) +
            dwellAt P cur < nSlots P) := by omega
        simp [h1, hns]
      · by_cases h2 : nSlots P ≤
            max (a.t cur) (a.t pv + dwellAt P pv + travelSlotsOfMinutes tt)
        · have hns : ¬ (max (a.t cur) (a.t pv + dwellAt P pv + travelSlotsOfMinutes tt) +
              dwellAt P cur < nSlots P) := by omega
          simp [h1, h2, hns]
        · by_cases h3 : max (a.t cur) (a.t pv + dwellAt P pv + travelSlotsOfMinutes tt) +
              dwellAt P cur < nSlots P
          · simp [h1, h2, h3, Nat.not_le.mpr h3]
          · simp [h1, h2, h3, Nat.le_of_not_lt h3]

/-- C2: the schedule computed by the repair loop of `_format_solution` is
exactly the spec-side schedule — the first visit keeps the solver's raw start
slot, each subsequent visit starts at `max(raw start, previous raw end +
travel slots at the previous end time)`, and a venue whose effective start
plus dwell would run past the horizon is dropped while the rest of the
schedule is kept. -/
theorem c2_repair_characterization (P : TourInstance) (a : Assignment) :
    (schedule P a).map (fun v => (v.venue, v.startSlot, v.endSlot)) =
      (specSchedule P a).map (fun q => (venueAt P q.1, q.2, q.2 + dwellAt P q.1)) := by
  unfold schedule specSchedule
  rw [List.map_filterMap, List.map_filterMap]
  exact List.filterMap_congr fun pcn _ => by
    simpa using mkVisit_proj_eq_spec P a pcn.1 pcn.2.1 pcn.2.2

/-- On a consistent raw assignment the repair computation returns the raw
start slot unchanged. -/
theorem repairedStart_consistent (P : TourInstance) (a : Assignment)
    (prev : Option Nat) (cur : Nat)
    (hfit : a.t cur + dwellAt P cur < nSlots P)
    (hprev : ∀ pv, prev = some pv →
      a.t pv + dwellAt P pv + specTravelSlots P a pv cur ≤ a.t cur) :
    repairedStart P a prev cur = some (a.t cur) := by
  cases prev with
  | none => rfl
  | some pv =>
    have hp := hprev pv rfl
    rw [specTravelSlots] at hp
    simp only [repairedStart]
    rcases hlk : P.travel_times (venueAt P pv, venueAt P cur,
        slotLabel P (min (a.t pv + dwellAt P pv) (nSlots P - 1)), P.day) with _ | tt
    · rw [hlk] at hp
      simp [max_eq_left hp]
    · rw [hlk] at hp
      have hp' : a.t pv + dwellAt P pv + travelSlotsOfMinutes tt ≤ a.t cur := hp
      have h1 : ¬ (nSlots P ≤ a.t pv + dwellAt P pv + travelSlotsOfMinutes tt) := by
        omega
      have h2 : max (a.t cur) (a.t pv + dwellAt P pv + travelSlotsOfMinutes tt) =
          a.t cur := max_eq_left hp'
      simp [h1, h2, Nat.not_le.mpr (lt_of_le_of_lt (Nat.le_add_right _ _) hfit)]

/-- On a consistent raw assignment one repair-loop iteration keeps the venue
with exactly its raw start and end slots. -/
theorem mkVisit_consistent (P : TourInstance) (a : Assignment)
    (prev : Option Nat) (cur : Nat) (next : Option Nat)
    (hfit : a.t cur + dwellAt P cur < nSlots P)
    (hprev : ∀ pv, prev = some pv →
      a.t pv + dwellAt P pv + specTravelSlots P a pv cur ≤ a.t cur) :
    (mkVisit P a prev cur next).map (fun v => (v.venue, v.startSlot, v.endSlot)) =
      some (venueAt P cur, a.t cur, a.t cur + dwellAt P cur) := by
  have hr := repairedStart_consistent P a prev cur hfit hprev
  simp [mkVisit, hr, Nat.not_le.mpr hfit]

/-- Induction core for the idempotence claim, generalized over the
predecessor handed to the first venue of the remaining list. -/
theorem schedule_consistent_aux (P : TourInstance) (a : Assignment) :
    ∀ (l : List Nat) (prev : Option Nat),
      (∀ i ∈ l, a.t i + dwellAt P i < nSlots P) →
      (∀ pv c, prev = some pv → l.head? = some c →
        a.t pv + dwellAt P pv + specTravelSlots P a pv c ≤ a.t c) →
      List.Chain' (fun pv c =>
        a.t pv + dwellAt P pv + specTravelSlots P a pv c ≤ a.t c) l →
      ((neighborTriples prev l).filterMap
          (fun pcn => mkVisit P a pcn.1 pcn.2.1 pcn.2.2)).map
          (fun v => (v.venue, v.startSlot, v.endSlot)) =
        l.map (fun i => (venueAt P i, a.t i, a.t i + dwellAt P i)) := by
  intro l
  induction l with
  | nil => intro prev _ _ _; rfl
  | cons c rest ih =>
    intro prev hfit hprev hchain
    have hfc : a.t c + dwellAt P c < nSlots P := hfit c (List.mem_cons_self c rest)
    have hpc : ∀ pv, prev = some pv →
        a.t pv + dwellAt P pv + specTravelSlots P a pv c ≤ a.t c :=
      fun pv hpv => hprev pv c hpv rfl
    rw [List.map_filterMap]
    cases rest with
    | nil =>
      show List.filterMap _ [(prev, c, none)] = _
      simp only [List.filterMap_cons, List.filterMap_nil,
        mkVisit_consistent P a prev c none hfc hpc]
      rfl
    | cons d rest' =>
      show List.filterMap _ ((prev, c, some d) :: neighborTriples (some c) (d :: rest')) = _
      have hch := List.chain'_cons.mp hchain
      have htail := ih (some c)
        (fun i hi => hfit i (List.mem_cons_of_mem c hi))
        (fun pv e hpv he => by
          cases hpv
          cases he
          exact hch.1)
        hch.2
      rw [List.map_filterMap] at htail
      simp only [List.filterMap_cons, mkVisit_consistent P a prev c (some d) hfc hpc]
      rw [htail]
      rfl

/-- C8: repairing an already-consistent raw assignment is the identity — if
every ordered consecutive pair already leaves room for the travel slots and
every visit fits inside the horizon, the schedule lists every selected venue
with exactly its raw start and end slots. -/
theorem c8_repair_idempotent (P : TourInstance) (a : Assignment)
    (hfit : ∀ i ∈ orderedIndices P a, a.t i + dwellAt P i < nSlots P)
    (hchain : List.Chain'
      (fun pv c => a.t pv + dwellAt P pv + specTravelSlots P a pv c ≤ a.t c)
      (orderedIndices P a)) :
    (schedule P a).map (fun v => (v.venue, v.startSlot, v.endSlot)) =
      (orderedIndices P a).map (fun i => (venueAt P i, a.t i, a.t i + dwellAt P i)) := by
  unfold schedule
  exact schedule_consistent_aux P a (orderedIndices P a) none hfit
    (fun pv c hpv _ => by cases hpv) hchain

/-- Witness for C8 at the consistent concrete instance. -/
theorem c8_witness :
    (schedule instC8 asgC8).map (fun v => (v.venue, v.startSlot, v.endSlot)) =
      (orderedIndices instC8 asgC8).map
        (fun i => (venueAt instC8 i, asgC8.t i, asgC8.t i + dwellAt instC8 i)) := by
  apply c8_repair_idempotent instC8 asgC8 (by decide)
  have hord : orderedIndices instC8 asgC8 = [0, 1] := by decide
  rw [hord]
  exact List.chain'_cons.mpr ⟨by decide, List.chain'_singleton 1⟩

/-- A count of one over a list pins down a unique member satisfying the
predicate. -/
theorem countP_eq_one_unique {l : List Nat} {q : Nat → Bool}
    (h : l.countP q = 1) : ∃! x, x ∈ l ∧ q x = true := by
  rw [List.countP_eq_length_filter] at h
  obtain ⟨b, hb⟩ := List.length_eq_one.mp h
  have hbmem : b ∈ l.filter q := by
    rw [hb]
    exact List.mem_singleton_self b
  refine ⟨b, ⟨(List.mem_filter.mp hbmem).1, (List.mem_filter.mp hbmem).2⟩, ?_⟩
  intro y hy
  have : y ∈ l.filter q := List.mem_filter.mpr ⟨hy.1, hy.2⟩
  rw [hb] at this
  exact List.eq_of_mem_singleton this

/-- C7: in every feasible assignment a venue is selected iff its position is
positive, every selected venue's position lies in `1..k` for `k` the number
of selected venues, and each position in `1..k` is held by exactly one
venue — so the selected positions are a permutation of `1..k` with no gaps
or duplicates, while unselected venues sit at position 0. -/
theorem c7_selection_position_invariant (P : TourInstance) (a : Assignment)
    (h : satisfiesModel P a = true) :
    (∀ i < nVenues P, (a.x i = false ↔ a.p i = 0)) ∧
      (∀ i < nVenues P, a.x i = true → 1 ≤ a.p i ∧ a.p i ≤ nSelected P a) ∧
      (∀ pos, 1 ≤ pos → pos ≤ nSelected P a →
        ∃! i, i < nVenues P ∧ a.p i = pos) := by
  have hdom : domainOk P a = true := by
    simp only [satisfiesModel, Bool.and_eq_true] at h
    exact h.1.1.1.1
  have hpos : positionOk P a = true := by
    simp only [satisfiesModel, Bool.and_eq_true] at h
    exact h.1.1.2
  simp only [domainOk, List.all_eq_true, List.mem_range, Bool.and_eq_true,
    decide_eq_true_iff] at hdom
  simp only [positionOk, Bool.and_eq_true, List.all_eq_true, List.mem_range,
    Bool.or_eq_true, Bool.not_eq_true', decide_eq_true_iff, beq_iff_eq] at hpos
  obtain ⟨⟨⟨hA, _⟩, hC⟩, hD⟩ := hpos
  have hk_le : nSelected P a ≤ nVenues P := by
    have := List.countP_le_length (fun i => a.x i) (l := List.range (nVenues P))
    simpa [nSelected] using this
  refine ⟨?_, ?_, ?_⟩
  · intro i hi
    constructor
    · intro hxf
      rcases (hA i hi).2 with hxt | hp0
      · rw [hxf] at hxt
        exact absurd hxt (by simp)
      · exact hp0
    · intro hp0
      rcases (hA i hi).1 with hxf | hppos
      · exact hxf
      · omega
  · intro i hi hx
    have hppos : 0 < a.p i := by
      rcases (hA i hi).1 with hxf | hppos
      · rw [hx] at hxf
        exact absurd hxf (by simp)
      · exact hppos
    have hpn : a.p i ≤ nVenues P := (hdom i hi).2
    rcases hC i hi (a.p i - 1) (by omega) with hne | hle
    · rw [beq_eq_false_iff_ne] at hne
      omega
    · omega
  · intro pos h1 hk
    have hposn : pos - 1 < nVenues P := by omega
    have hcount : posCount P a (pos - 1 + 1) = 1 := by
      rcases (hD (pos - 1) hposn).1 with hfalse | hcount
      · rw [decide_eq_false_iff_not] at hfalse
        omega
      · exact hcount
    have : pos - 1 + 1 = pos := by omega
    rw [this] at hcount
    have huniq := countP_eq_one_unique (l := List.range (nVenues P))
      (q := fun i => a.p i == pos) hcount
    exact (existsUnique_congr fun i => by simp [List.mem_range]).mp huniq

/-- Witness for C7 at the feasible two-venue instance: position 1 is held by
exactly one venue. -/
theorem c7_witness : ∃! i, i < nVenues instC5 ∧ asgC5.p i = 1 :=
  (c7_selection_position_invariant instC5 asgC5 (by decide)).2.2 1
    (by decide) (by decide)

/-- C10: the aggregate metrics count solver-selected venues, not kept visits:
`total_venues` equals the number of venues with `selected = true`, the
average crowd level divides the accumulated crowd sum by the summed dwell
slots of *all* selected venues, and on the concrete instance whose second
visit the repair step drops, `total_venues` exceeds the schedule length. -/
theorem c10_metrics_count_solver_selected :
    (∀ (P : TourInstance) (a : Assignment),
        (formatSolution P a).metrics.total_venues = nSelected P a ∧
          (formatSolution P a).metrics.average_crowd_level =
            ((formatSolution P a).metrics.total_crowd_exposure : Rat) /
              ((((formatSolution P a).selected_venues.map P.dwell_slots).sum : Nat) : Rat)) ∧
      (formatSolution instC10 asgC10).schedule.length <
        (formatSolution instC10 asgC10).metrics.total_venues := by
  constructor
  · intro P a
    constructor
    · show ((orderedIndices P a).map (venueAt P)).length = nSelected P a
      rw [List.length_map]
      unfold orderedIndices selectedIndices nSelected
      rw [List.length_insertionSort, List.countP_eq_length_filter]
    · simp only [formatSolution]
      by_cases hemp : ((orderedIndices P a).map (venueAt P)).isEmpty
      · rw [if_pos hemp]
        have hnil : orderedIndices P a = [] :=
          List.map_eq_nil_iff.mp (List.isEmpty_iff.mp hemp)
        rw [hnil]
        simp [schedule, totalCrowd, hnil, neighborTriples]
      · rw [if_neg hemp]
  · decide

end SmartTour
